import Mathlib

/-!
# Verification of the iptooled reputation daemon core

A shallow embedding of the iptooled source (src/address.rs, src/tree/mod.rs,
src/tree/node_index.rs, src/tree.rs, src/time_list.rs, src/main.rs) in Lean.
Machine integers are modelled as `Nat` with explicit wrap/saturation where the
Rust types (`u8`, `u16`, `u32`, `u64`) make it matter.  Panicking code paths
(failed `assert!`, out-of-bounds indexing, `unwrap`, `expect`, checked
arithmetic) are modelled as `Option`, with `none` for the panic.
Addresses are lists of byte values (length 16 where the Rust type is
`[u8; ADDRESS_BYTES]`).
-/

set_option autoImplicit false

namespace Iptooled

/-- `u32::MAX`, for the saturating adds in the trie. -/
def u32Max : Nat := 4294967295

/-- `2^64`, the modulus for `u64` arithmetic in SipHash. -/
def w64 : Nat := 18446744073709551616

/-- `u64` addition (wrapping). -/
def add64 (a b : Nat) : Nat := (a + b) % w64

/-- `u64` left rotation by `r` bits (`0 < r < 64`). -/
def rotl64 (x r : Nat) : Nat :=
  ((x <<< r) % w64) ||| (x >>> (64 - r))

/-- Little-endian interpretation of up to eight bytes as a `u64`. -/
def le64 (bytes : List Nat) : Nat :=
  (bytes.enum.map (fun p => p.2 <<< (8 * p.1))).foldl (· ||| ·) 0

/-- Big-endian byte serialization of a `u64`, as in `u64::to_be_bytes`. -/
def be64 (x : Nat) : List Nat :=
  [x >>> 56 % 256, x >>> 48 % 256, x >>> 40 % 256, x >>> 32 % 256,
   x >>> 24 % 256, x >>> 16 % 256, x >>> 8 % 256, x % 256]

/-- The four 64-bit words of SipHash internal state. -/
structure SipState where
  v0 : Nat
  v1 : Nat
  v2 : Nat
  v3 : Nat
  deriving Repr, DecidableEq

/-- One SipRound of SipHash. -/
def sipRound (s : SipState) : SipState :=
  let v0 := add64 s.v0 s.v1
  let v1 := rotl64 s.v1 13
  let v1 := v1 ^^^ v0
  let v0 := rotl64 v0 32
  let v2 := add64 s.v2 s.v3
  let v3 := rotl64 s.v3 16
  let v3 := v3 ^^^ v2
  let v0' := add64 v0 v3
  let v3 := rotl64 v3 21
  let v3 := v3 ^^^ v0'
  let v2' := add64 v2 v1
  let v1 := rotl64 v1 17
  let v1 := v1 ^^^ v2'
  let v2 := rotl64 v2' 32
  ⟨v0', v1, v2, v3⟩

/-- Absorb one message word with SipHash-2-4's two compression rounds. -/
def sipCompress (s : SipState) (m : Nat) : SipState :=
  let s := { s with v3 := s.v3 ^^^ m }
  let s := sipRound (sipRound s)
  { s with v0 := s.v0 ^^^ m }

/-- The streaming `SipHasher24` from the `siphasher` crate: running state,
total byte count, and the buffered tail (fewer than eight bytes). -/
structure SipHasher24 where
  state : SipState
  length : Nat
  tail : List Nat
  deriving Repr, DecidableEq

/-- `SipHasher24::new_with_keys`. -/
def SipHasher24.newWithKeys (k0 k1 : Nat) : SipHasher24 where
  state :=
    ⟨k0 ^^^ 0x736f6d6570736575, k1 ^^^ 0x646f72616e646f6d,
     k0 ^^^ 0x6c7967656e657261, k1 ^^^ 0x7465646279746573⟩
  length := 0
  tail := []

/-- Compress every complete 8-byte block of a byte stream, returning the new
state and the leftover bytes. -/
def sipBlocks : SipState → List Nat → SipState × List Nat
  | s, b0 :: b1 :: b2 :: b3 :: b4 :: b5 :: b6 :: b7 :: rest =>
    sipBlocks (sipCompress s (le64 [b0, b1, b2, b3, b4, b5, b6, b7])) rest
  | s, rest => (s, rest)

/-- `Hasher::write` for `SipHasher24`: absorb a byte string. -/
def SipHasher24.write (h : SipHasher24) (bytes : List Nat) : SipHasher24 :=
  let (state, tail) := sipBlocks h.state (h.tail ++ bytes)
  { state := state, length := h.length + bytes.length, tail := tail }

/-- `Hasher::finish` for `SipHasher24`: pad the tail with the length byte,
absorb it, run the four finalization rounds, and xor the words together.
Does not mutate the running state. -/
def SipHasher24.finish (h : SipHasher24) : Nat :=
  let b := ((h.length % 256) <<< 56) ||| le64 h.tail
  let s := sipCompress h.state b
  let s := { s with v2 := s.v2 ^^^ 0xff }
  let s := sipRound (sipRound (sipRound (sipRound s)))
  ((s.v0 ^^^ s.v1) ^^^ s.v2) ^^^ s.v3

/-! ## src/address.rs -/

/-- `ADDRESS_BYTES`. -/
def ADDRESS_BYTES : Nat := 16

/-- `ADDRESS_BITS`. -/
def ADDRESS_BITS : Nat := 128

/-- An address is its sixteen bytes (`Address(pub [u8; ADDRESS_BYTES])`). -/
abbrev Address := List Nat

/-- `AddressPrefix { first, bits }`. -/
structure AddressPrefix where
  first : Address
  bits : Nat
  deriving Repr, DecidableEq

/-- `mask`: a byte with the first `n` bits set (`!(0xff >> n)`). -/
def mask (n : Nat) : Nat := 255 ^^^ (255 >>> n)

/-- `Address::prefix`.  `none` models a panic: the `assert!(bits <= ADDRESS_BITS)`,
or the out-of-bounds write `result[wholes + 1]` when `wholes + 1` is 16
(which happens for `bits` in `121..=127`).  Note the source masks
`self.0[wholes + 1]` into slot `wholes + 1`, leaving slot `wholes` zero. -/
def Address.toPrefix? (a : Address) (bits : Nat) : Option AddressPrefix :=
  if 128 < bits then none
  else
    let wholes := bits / 8
    let remainder := bits % 8
    let result := a.take wholes ++ List.replicate (16 - wholes) 0
    if remainder = 0 then some ⟨result, bits⟩
    else if wholes + 1 < 16 then
      some ⟨result.set (wholes + 1) ((a.getD (wholes + 1) 0) &&& mask remainder), bits⟩
    else none

/-- `AddressPrefix::shorten`.  `none` models the `expect` failure at `bits == 0`
and the out-of-bounds write `self.first.0[new_byte + 1]` when `new_byte + 1`
is 16 (which happens when shortening a 128-bit prefix). -/
def AddressPrefix.shorten? (p : AddressPrefix) : Option AddressPrefix :=
  match p.bits with
  | 0 => none
  | b + 1 =>
    let newByte := b / 8
    let newBit := b % 8
    if newBit = 7 then
      if newByte + 1 < 16 then some ⟨p.first.set (newByte + 1) 0, b⟩ else none
    else
      some ⟨p.first.set newByte ((p.first.getD newByte 0) &&& mask newBit), b⟩

/-- `AddressPrefix::is_prefix_of`.  `none` models the out-of-bounds read at
`wholes + 1` when `bits` is in `121..=127`. -/
def AddressPrefix.isPrefixOf? (p : AddressPrefix) (a : Address) : Option Bool :=
  let wholes := p.bits / 8
  let remainder := p.bits % 8
  if p.first.take wholes ≠ a.take wholes then some false
  else if remainder = 0 then some true
  else if wholes + 1 < 16 then
    some (((p.first.getD (wholes + 1) 0) ^^^ (a.getD (wholes + 1) 0)) &&& mask remainder == 0)
  else none

/-- Modelled from the spec: `AddressPrefix::bytes` is declared in the source
tree but its body is not under src/ (only its caller `TreeOperation::serialize`
is).  Per §3 of the spec, "only as many address bytes are semantically
meaningful as the prefix requires": the first `⌈bits/8⌉` bytes of `first`. -/
def AddressPrefix.meaningfulBytes (p : AddressPrefix) : List Nat :=
  p.first.take ((p.bits + 7) / 8)

/-! ## src/tree/node_index.rs -/

/-- `AddressPath`: the 32 nibbles of an address, high nibble of each byte
first (`NodeIndex::high` then `NodeIndex::low`). -/
def addressNibbles (a : Address) : List Nat :=
  a.flatMap (fun b => [b / 16, b % 16])

/-! ## src/tree/mod.rs -/

/-- `MINIMUM_BITS`. -/
def MINIMUM_BITS : Nat := 20

/-- A trie node: `AddressTreeNode { children: NodeArray<Option<Box<AddressTreeNode>>>,
trusted_count, spam_count }`.  `children` is the 16-slot array. -/
inductive Node where
  | mk (trusted : Nat) (spam : Nat) (children : List (Option Node))

def Node.trusted : Node → Nat
  | .mk t _ _ => t

def Node.spam : Node → Nat
  | .mk _ s _ => s

def Node.children : Node → List (Option Node)
  | .mk _ _ c => c

/-- `AddressTreeNode::new`. -/
def Node.fresh : Node := .mk 0 0 (List.replicate 16 none)

def Node.getChild (n : Node) (i : Nat) : Option Node :=
  n.children.getD i none

def Node.setChild (n : Node) (i : Nat) (c : Node) : Node :=
  .mk n.trusted n.spam (n.children.set i (some c))

def Node.incTrusted (n : Node) : Node :=
  .mk (min (n.trusted + 1) u32Max) n.spam n.children

def Node.incSpam (n : Node) : Node :=
  .mk n.trusted (min (n.spam + 1) u32Max) n.children

/-- Descend the trie by explicit nibble path (for stating structure facts). -/
def Node.lookupPath : Node → List Nat → Option Node
  | n, [] => some n
  | n, i :: is =>
    match n.getChild i with
    | none => none
    | some c => c.lookupPath is

/-- The loop of `AddressTree::record_trusted`: starting at a node at bit depth
`d` with the remaining nibble path, increment `trusted_count` (saturating),
stop once `d ≥ MINIMUM_BITS` and the current node's `spam_count` is zero or
the path is exhausted, else descend into the (created-if-absent) child.
Returns the updated node and the bit depth reached.  (On an exhausted path
both break arms of the source loop return the incremented node at the current
depth, so the empty-path case folds them into one equation.) -/
def recordTrustedGo : Node → List Nat → Nat → Node × Nat
  | n, [], d => (n.incTrusted, d)
  | n, i :: rest, d =>
    let n1 := n.incTrusted
    if MINIMUM_BITS ≤ d ∧ n1.spam = 0 then (n1, d)
    else
      let child := (n1.getChild i).getD Node.fresh
      let (c', k) := recordTrustedGo child rest (d + 4)
      (n1.setChild i c', k)

/-- The loop of `AddressTree::record_spam`: increment `spam_count` (saturating)
at every node down to the full 32-nibble leaf, creating children as needed. -/
def recordSpamGo : Node → List Nat → Node
  | n, [] => n.incSpam
  | n, i :: rest =>
    let n1 := n.incSpam
    n1.setChild i (recordSpamGo ((n1.getChild i).getD Node.fresh) rest)

/-- `QueryResult` of src/tree/mod.rs. -/
structure TrieQueryResult where
  trusted_count : Nat
  spam_count : Nat
  prefix_bits : Nat
  deriving Repr, DecidableEq

/-- `AddressTree::query`: follow existing children along the path, counting
four bits per level. -/
def Node.query : Node → List Nat → Nat → TrieQueryResult
  | n, [], d => ⟨n.trusted, n.spam, d⟩
  | n, i :: rest, d =>
    match n.getChild i with
    | none => ⟨n.trusted, n.spam, d⟩
    | some c => c.query rest (d + 4)

/-- `TreeOperation`. -/
inductive TreeOperation where
  | Trust (p : AddressPrefix)
  | Spam (a : Address)
  deriving Repr, DecidableEq

/-- Modelled from the spec: `AddressPrefix::first` (the accessor consumed by
`TreeOperation::apply`) is not under src/; per the field's documentation it
returns the stored `first` address. -/
def TreeOperation.applyTarget : TreeOperation → Address
  | .Trust p => p.first
  | .Spam a => a

/-- `TreeOperation::serialize`: the 17 content bytes of a record.  `none`
models the `assert!(bits != 0)` for a `Trust` of an empty prefix.  A `Trust`
record stores the prefix's meaningful bytes and leaves the rest zero; a `Spam`
record stores the full address after a zero tag byte. -/
def TreeOperation.serializeBytes? : TreeOperation → Option (List Nat)
  | .Trust p =>
    if p.bits = 0 then none
    else
      let pb := p.meaningfulBytes
      some (p.bits :: (pb ++ List.replicate (16 - pb.length) 0))
  | .Spam a => some (0 :: a)

/-- `TreeOperation::deserialize` over the 17-byte buffer `buf`.  First byte 0
is `Spam`; any other first byte `bits` is `Trust(address.prefix(bits))`,
which panics (`none`) for `bits > 128` and for `bits` in `121..=127`. -/
def TreeOperation.deserialize? : List Nat → Option TreeOperation
  | [] => none
  | b :: addr =>
    if b = 0 then some (.Spam addr)
    else (Address.toPrefix? addr b).map .Trust

/-- `AddressTree`: the root node together with the running keyed hasher. -/
structure AddressTree where
  root : Node
  checksum : SipHasher24

/-- `AddressTree::new_with_keys`. -/
def AddressTree.new (k0 k1 : Nat) : AddressTree :=
  ⟨Node.fresh, SipHasher24.newWithKeys k0 k1⟩

/-- The free function `serialize` of src/tree/mod.rs: feed the 17 content
bytes to the running hasher and append the hasher's current state as the
big-endian tag, producing the 25-byte `SerializedTreeOperation`. -/
def serializeWithChecksum? (h : SipHasher24) (op : TreeOperation) :
    Option (List Nat × SipHasher24) :=
  (op.serializeBytes?).map fun content =>
    let h' := h.write content
    (content ++ be64 h'.finish, h')

/-- `AddressTree::record_trusted`: walk per `recordTrustedGo` from the root at
depth 0, then serialize `Trust(address.prefix(prefix_bits))`.  `none` models
the panic inside `Address::prefix` when the stop depth is 124. -/
def AddressTree.recordTrusted? (t : AddressTree) (a : Address) :
    Option (AddressTree × List Nat) := do
  let (root', k) := recordTrustedGo t.root (addressNibbles a) 0
  let p ← a.toPrefix? k
  let (bytes, h') ← serializeWithChecksum? t.checksum (.Trust p)
  some (⟨root', h'⟩, bytes)

/-- `AddressTree::record_spam`: walk per `recordSpamGo` from the root, then
serialize `Spam(address)`. -/
def AddressTree.recordSpam? (t : AddressTree) (a : Address) :
    Option (AddressTree × List Nat) := do
  let root' := recordSpamGo t.root (addressNibbles a)
  let (bytes, h') ← serializeWithChecksum? t.checksum (.Spam a)
  some (⟨root', h'⟩, bytes)

/-- `TreeOperation::apply`: `Trust(prefix)` replays `record_trusted` on
`prefix.first()`; `Spam(address)` replays `record_spam`. -/
def TreeOperation.apply? (op : TreeOperation) (t : AddressTree) :
    Option (AddressTree × List Nat) :=
  match op with
  | .Trust p => t.recordTrusted? p.first
  | .Spam a => t.recordSpam? a

/-! ## src/time_list.rs

`CoarseSystemTime` is its `epoch_hours : u32`, modelled as `Nat`;
`CoarseDuration` is its `hours : u16`, modelled as `Nat`. -/

/-- `CoarseSystemTime::time_since`: zero for a reference up to one hour in the
future, the difference as `u16` hours otherwise.  `none` models the two
panics (more than an hour in the future; difference ≥ 2^16 hours). -/
def timeSince? (a b : Nat) : Option Nat :=
  if a < b then
    if a + 1 < b then none else some 0
  else if a - b < 65536 then some (a - b) else none

/-- `Sub<CoarseDuration> for CoarseSystemTime`: checked subtraction, `none`
models the panic on a time before the epoch. -/
def checkedSubTime? (t d : Nat) : Option Nat :=
  if d ≤ t then some (t - d) else none

/-- `TimeList<T>`: a queue of `(value, offset)` entries, delta-encoded, with
`head_tail` and the expiry `limit`. -/
structure TimeList (α : Type) where
  values : List (α × Nat)
  headTail : Option (Nat × Nat)
  limit : Nat
  deriving Repr, DecidableEq

/-- `TimeList::new`. -/
def TimeList.new (α : Type) (limit : Nat) : TimeList α :=
  ⟨[], none, limit⟩

/-- `TimeList::push`: offset 0 into an empty list, otherwise the offset is
`time.time_since(tail)` (whose panics propagate as `none`). -/
def TimeList.push? {α : Type} (l : TimeList α) (v : α) (time : Nat) :
    Option (TimeList α) :=
  match l.headTail with
  | none => some { l with values := l.values ++ [(v, 0)], headTail := some (time, time) }
  | some (h, tail) =>
    (timeSince? time tail).map fun offset =>
      { l with values := l.values ++ [(v, offset)], headTail := some (h, time) }

/-- One `Trim::next` call with the already-computed `cutoff`.  Faithful to the
source: `let (ref mut head, _) = self.list.head_tail?` copies the pair out of
the list, so the later `*head += next.offset` updates only that copy and the
stored head never advances; only emptying the list clears `head_tail`.
Yields the trimmed value with the (stale) head time, or `none` when iteration
stops. -/
def TimeList.trimStep {α : Type} (l : TimeList α) (cutoff : Nat) :
    Option ((α × Nat) × TimeList α) :=
  match l.headTail with
  | none => none
  | some (h, t) =>
    if cutoff ≤ h then none
    else
      match l.values with
      | [] => none
      | e :: rest =>
        match rest with
        | [] => some ((e.1, h), { l with values := [], headTail := none })
        | f :: rs =>
          some ((e.1, h), { l with values := (f.1, 0) :: rs, headTail := some (h, t) })

/-- The `head + Σ offsets = tail` and front-offset-zero invariant of §3 and of
the repository's own `back_time_is_tail` / `front_time_is_head` quickcheck
tests. -/
def TimeList.wellFormed {α : Type} (l : TimeList α) : Bool :=
  match l.headTail with
  | none => l.values.isEmpty
  | some (h, t) =>
    (h + (l.values.map (·.2)).sum == t) &&
      (match l.values with
       | [] => false
       | e :: _ => e.2 == 0)

/-! ## src/tree.rs (the `SpamTree` variant) -/

/-- `ENTRIES_PER_USER`. -/
def ENTRIES_PER_USER : Nat := 5

/-- `PREFIX_BITS_MINIMUM`. -/
def PREFIX_BITS_MINIMUM : Nat := 12

/-- `USER_EXPIRY_HOURS` (30 days). -/
def USER_EXPIRY_HOURS : Nat := 24 * 30

/-- `ADDRESS_EXPIRY_HOURS` (2 years). -/
def ADDRESS_EXPIRY_HOURS : Nat := 24 * 365 * 2

/-- `SpamStats`. -/
structure SpamStats where
  trusted_users : Nat
  spam_users : Nat
  deriving Repr, DecidableEq

def SpamStats.EMPTY : SpamStats := ⟨0, 0⟩

/-- `OperationType`. -/
inductive OpType where
  | Trust
  | Spam
  deriving Repr, DecidableEq

/-- `Operation(OperationType, Address, User)`; users are their `u32` value. -/
abbrev Operation := OpType × Address × Nat

/-- `AddressOperation(OperationType, Address)`. -/
abbrev AddressOperation := OpType × Address

/-- `QueryResult` of src/tree.rs. -/
structure SpamQueryResult where
  stats : SpamStats
  prefix_bits : Nat
  deriving Repr, DecidableEq

/-- Derived `Ord` on `[u8; 16]`: lexicographic, element by element. -/
def compareBytes : List Nat → List Nat → Ordering
  | [], [] => .eq
  | [], _ :: _ => .lt
  | _ :: _, [] => .gt
  | a :: as, b :: bs =>
    match compare a b with
    | .eq => compareBytes as bs
    | o => o

/-- Derived `Ord` on `AddressPrefix`: lexicographic on the byte array of
`first`, then on `bits`. -/
def AddressPrefix.le (p q : AddressPrefix) : Bool :=
  match compareBytes p.first q.first with
  | .lt => true
  | .gt => false
  | .eq => p.bits ≤ q.bits

/-- `self.counts.range(..=&prefix).next_back()`: the greatest key not above
`p` in the map (the map's keys are distinct). -/
def findMaxLe (counts : List (AddressPrefix × SpamStats)) (p : AddressPrefix) :
    Option (AddressPrefix × SpamStats) :=
  counts.foldl
    (fun acc kv =>
      if kv.1.le p then
        match acc with
        | none => some kv
        | some best => if best.1.le kv.1 then some kv else some best
      else acc)
    none

/-- `SpamTree`.  `users` is the `HashMap<User, u8>` as an association list
with distinct keys; `counts` is the `BTreeMap<AddressPrefix, SpamStats>` as a
sorted association list. -/
structure SpamTree where
  users : List (Nat × Nat)
  counts : List (AddressPrefix × SpamStats)
  userWindow : TimeList Operation
  addressWindow : TimeList AddressOperation
  deriving Repr, DecidableEq

/-- `SpamTree::new`. -/
def SpamTree.newTree : SpamTree :=
  ⟨[], [], TimeList.new Operation USER_EXPIRY_HOURS,
   TimeList.new AddressOperation ADDRESS_EXPIRY_HOURS⟩

def lookupUser (users : List (Nat × Nat)) (u : Nat) : Option Nat :=
  (users.find? (fun e => e.1 == u)).map (·.2)

def setUser (users : List (Nat × Nat)) (u c : Nat) : List (Nat × Nat) :=
  users.map (fun e => if e.1 == u then (u, c) else e)

def removeUser (users : List (Nat × Nat)) (u : Nat) : List (Nat × Nat) :=
  users.filter (fun e => e.1 != u)

/-- `SpamTree::try_increment`: `none` is the cap rejection (not a panic). -/
def tryIncrement (users : List (Nat × Nat)) (u : Nat) :
    Option (List (Nat × Nat)) :=
  match lookupUser users u with
  | some c => if c = ENTRIES_PER_USER then none else some (setUser users u (c + 1))
  | none => some (users ++ [(u, 1)])

/-- The decrement-or-remove step of `SpamTree::advance` for an expired user
entry; `none` models the "User unexpectedly missing from map" panic. -/
def userDecrement? (users : List (Nat × Nat)) (u : Nat) :
    Option (List (Nat × Nat)) :=
  match lookupUser users u with
  | none => none
  | some c => if 1 < c then some (setUser users u (c - 1)) else some (removeUser users u)

/-- The loop of `SpamTree::apply`: run `entry_update` on the entry for every
prefix of the address from 128 bits down to `PREFIX_BITS_MINIMUM`, shortening
one bit at a time (whose panics propagate as `none`).  `fuel` bounds the loop
(bits only decrease, so 129 suffices from the top). -/
def applyCountsGo
    (entryUpdate : List (AddressPrefix × SpamStats) → AddressPrefix →
      Option (List (AddressPrefix × SpamStats))) :
    Nat → List (AddressPrefix × SpamStats) → AddressPrefix →
      Option (List (AddressPrefix × SpamStats))
  | 0, _, _ => none
  | fuel + 1, counts, p => do
    let counts' ← entryUpdate counts p
    if p.bits = PREFIX_BITS_MINIMUM then some counts'
    else do
      let p' ← p.shorten?
      applyCountsGo entryUpdate fuel counts' p'

/-- `SpamTree::apply`. -/
def applyCounts?
    (entryUpdate : List (AddressPrefix × SpamStats) → AddressPrefix →
      Option (List (AddressPrefix × SpamStats)))
    (counts : List (AddressPrefix × SpamStats)) (a : Address) :
    Option (List (AddressPrefix × SpamStats)) := do
  let p ← a.toPrefix? 128
  applyCountsGo entryUpdate 129 counts p

/-- Insert the entry at its sorted position (`BTreeMap` keeps keys ordered). -/
def insertCount (counts : List (AddressPrefix × SpamStats))
    (p : AddressPrefix) (s : SpamStats) : List (AddressPrefix × SpamStats) :=
  match counts with
  | [] => [(p, s)]
  | kv :: rest =>
    if AddressPrefix.le p kv.1 then (p, s) :: kv :: rest
    else kv :: insertCount rest p s

def lookupCount (counts : List (AddressPrefix × SpamStats)) (p : AddressPrefix) :
    Option SpamStats :=
  (counts.find? (fun kv => kv.1 == p)).map (·.2)

def setCount (counts : List (AddressPrefix × SpamStats)) (p : AddressPrefix)
    (s : SpamStats) : List (AddressPrefix × SpamStats) :=
  counts.map (fun kv => if kv.1 == p then (p, s) else kv)

def removeCount (counts : List (AddressPrefix × SpamStats)) (p : AddressPrefix) :
    List (AddressPrefix × SpamStats) :=
  counts.filter (fun kv => kv.1 != p)

/-- The entry update of `SpamTree::trust` / `SpamTree::spam`:
`entry.or_insert(EMPTY).<field> += 1`. -/
def incStatEntry (f : SpamStats → SpamStats)
    (counts : List (AddressPrefix × SpamStats)) (p : AddressPrefix) :
    Option (List (AddressPrefix × SpamStats)) :=
  match lookupCount counts p with
  | some s => some (setCount counts p (f s))
  | none => some (insertCount counts p (f SpamStats.EMPTY))

/-- The entry update of `SpamTree::unapply`: panic (`none`) on a vacant entry
("Address unexpectedly missing from map") and on `u32` underflow of the
decremented field; remove the entry when it reaches `EMPTY`. -/
def decStatEntry (f : SpamStats → Option SpamStats)
    (counts : List (AddressPrefix × SpamStats)) (p : AddressPrefix) :
    Option (List (AddressPrefix × SpamStats)) :=
  match lookupCount counts p with
  | none => none
  | some s => do
    let s' ← f s
    if s' = SpamStats.EMPTY then some (removeCount counts p)
    else some (setCount counts p s')

def decTrusted (s : SpamStats) : Option SpamStats :=
  if s.trusted_users = 0 then none else some ⟨s.trusted_users - 1, s.spam_users⟩

def decSpam (s : SpamStats) : Option SpamStats :=
  if s.spam_users = 0 then none else some ⟨s.trusted_users, s.spam_users - 1⟩

/-- The first loop of `SpamTree::advance`: drain `user_window.trim(now)`,
decrementing the user's entry and moving the address part of the observation
into the address window at the trimmed entry's reported time. -/
def drainUserWindow : Nat → SpamTree → Nat → Option SpamTree
  | 0, st, _ => some st
  | fuel + 1, st, cutoff =>
    match st.userWindow.trimStep cutoff with
    | none => some st
    | some (((ty, addr, u), time), uw') => do
      let users' ← userDecrement? st.users u
      let aw' ← st.addressWindow.push? (ty, addr) time
      drainUserWindow fuel
        { st with users := users', userWindow := uw', addressWindow := aw' } cutoff

/-- The second loop of `SpamTree::advance`: drain `address_window.trim(now)`,
reversing the count updates of each fully expired observation. -/
def drainAddressWindow : Nat → SpamTree → Nat → Option SpamTree
  | 0, st, _ => some st
  | fuel + 1, st, cutoff =>
    match st.addressWindow.trimStep cutoff with
    | none => some st
    | some (((ty, addr), _time), aw') => do
      let f := match ty with
        | OpType.Trust => decTrusted
        | OpType.Spam => decSpam
      let counts' ← applyCounts? (decStatEntry f) st.counts addr
      drainAddressWindow fuel { st with counts := counts', addressWindow := aw' } cutoff

/-- `SpamTree::advance`.  Each `trim(now)` computes its cutoff `now - limit`
up front (a checked subtraction). -/
def SpamTree.advance? (st : SpamTree) (now : Nat) : Option SpamTree := do
  let cutoffU ← checkedSubTime? now st.userWindow.limit
  let st1 ← drainUserWindow (st.userWindow.values.length + 1) st cutoffU
  let cutoffA ← checkedSubTime? now st1.addressWindow.limit
  drainAddressWindow (st1.addressWindow.values.length + 1) st1 cutoffA

/-- `SpamTree::trust`: advance, silently drop on the per-user cap, otherwise
record the observation at every prefix and push it onto the user window. -/
def SpamTree.trust? (st : SpamTree) (a : Address) (u : Nat) (now : Nat) :
    Option SpamTree := do
  let st1 ← st.advance? now
  match tryIncrement st1.users u with
  | none => some st1
  | some users' => do
    let counts' ← applyCounts? (incStatEntry fun s => ⟨s.trusted_users + 1, s.spam_users⟩)
      st1.counts a
    let uw' ← st1.userWindow.push? (OpType.Trust, a, u) now
    some { st1 with users := users', counts := counts', userWindow := uw' }

/-- `SpamTree::spam`: like `trust`, incrementing `spam_users`. -/
def SpamTree.spam? (st : SpamTree) (a : Address) (u : Nat) (now : Nat) :
    Option SpamTree := do
  let st1 ← st.advance? now
  match tryIncrement st1.users u with
  | none => some st1
  | some users' => do
    let counts' ← applyCounts? (incStatEntry fun s => ⟨s.trusted_users, s.spam_users + 1⟩)
      st1.counts a
    let uw' ← st1.userWindow.push? (OpType.Spam, a, u) now
    some { st1 with users := users', counts := counts', userWindow := uw' }

/-- The loop of `SpamTree::query_stale`: find the greatest stored key not
above the current prefix; return its stats when it is a prefix of the
address no longer than the current prefix; stop with `EMPTY` when the map has
no key below or the prefix has reached `PREFIX_BITS_MINIMUM`; otherwise
shorten and retry (`shorten`'s panics propagate as `none`). -/
def queryStaleGo (counts : List (AddressPrefix × SpamStats)) (a : Address) :
    Nat → AddressPrefix → Option SpamQueryResult
  | 0, _ => none
  | fuel + 1, p =>
    match findMaxLe counts p with
    | none => some ⟨SpamStats.EMPTY, 0⟩
    | some (key, value) => do
      let matched ← if key.bits ≤ p.bits then key.isPrefixOf? a else some false
      if matched then some ⟨value, key.bits⟩
      else if p.bits = PREFIX_BITS_MINIMUM then some ⟨SpamStats.EMPTY, 0⟩
      else do
        let p' ← p.shorten?
        queryStaleGo counts a fuel p'

/-- `SpamTree::query_stale`. -/
def SpamTree.queryStale? (st : SpamTree) (a : Address) : Option SpamQueryResult := do
  let p ← a.toPrefix? 128
  queryStaleGo st.counts a 129 p

/-! ## src/main.rs: the bounded log queue -/

/-- The capacity-32 `mpsc::channel` feeding the log writer task. -/
def LOG_QUEUE_CAPACITY : Nat := 32

/-- `Sender::try_send` on a bounded queue: `Err(Full)` (here `none`) when the
queue already holds `LOG_QUEUE_CAPACITY` records; it never suspends. -/
def trySend (queue : List (List Nat)) (record : List Nat) :
    Option (List (List Nat)) :=
  if queue.length < LOG_QUEUE_CAPACITY then some (queue ++ [record]) else none

/-- The `Request::Trust` arm of `interact`: run `record_trusted`, then
`writer.try_send(write).unwrap()` — the `unwrap` panics (`none`) when the
queue is full. -/
def interactTrust? (t : AddressTree) (queue : List (List Nat)) (a : Address) :
    Option (AddressTree × List (List Nat)) := do
  let (t', write) ← t.recordTrusted? a
  let queue' ← trySend queue write
  some (t', queue')

/-! ## Concrete instances used by the theorems -/

/-- The all-zero address. -/
def zeroAddr : Address := List.replicate 16 0

/-- The expected trie after replaying one trusted record into an empty tree:
a chain of nodes with `trusted_count` 1 and `spam_count` 0 along the given
nibbles, with no further children. -/
def chainNode : List Nat → Node
  | [] => .mk 1 0 (List.replicate 16 none)
  | i :: is => .mk 1 0 ((List.replicate 16 none).set i (some (chainNode is)))

/-- Address `::2001:0db8:...` stand-in for claim C1: third byte `0x10`, so its
fifth nibble (bits 16..20) is nonzero. -/
def c1Addr : Address := 0 :: 0 :: 16 :: List.replicate 13 0

/-- The live system's operation for C1: one accepted trust observation. -/
def c1Live : Option (AddressTree × List Nat) :=
  (AddressTree.new 0 0).recordTrusted? c1Addr

/-- Startup replay for C1: deserialize the stored record's 17 content bytes
and apply it to a freshly constructed tree with the same keys. -/
def c1Replay : Option (AddressTree × List Nat) :=
  c1Live.bind fun r =>
    (TreeOperation.deserialize? (r.2.take 17)).bind fun op =>
      op.apply? (AddressTree.new 0 0)

/-- An address sharing 120 bits with `zeroAddr` but differing in nibble 30:
after `record_spam zeroAddr`, a `record_trusted` of it stops at depth 124. -/
def c5Addr : Address := List.replicate 15 0 ++ [16]

/-- The SpamTree state for claim C7: one recorded 12-bit prefix (the zero
prefix), which is not a prefix of the queried address. -/
def c7State : SpamTree :=
  { SpamTree.newTree with counts := [(⟨zeroAddr, 12⟩, ⟨1, 0⟩)] }

/-- The SpamTree state for claim C6: user 7 is at the cap, both windows are
empty. -/
def c6State : SpamTree := { SpamTree.newTree with users := [(7, ENTRIES_PER_USER)] }

end Iptooled

namespace Iptooled

/-! ## Helper lemmas -/

theorem replicate_getD_none :
    ∀ (n i : Nat), (List.replicate n (none : Option Node)).getD i none = none := by
  intro n
  induction n with
  | zero => intro i; simp
  | succ n ih =>
    intro i
    cases i with
    | zero => simp [List.replicate]
    | succ j => simp only [List.replicate, List.getD_cons_succ]; exact ih j

theorem addressNibbles_length (a : Address) :
    (addressNibbles a).length = 2 * a.length := by
  induction a with
  | nil => rfl
  | cons b bs ih =>
    simp only [addressNibbles, List.flatMap] at ih ⊢
    simp [ih]
    omega

theorem fresh_incTrusted : Node.fresh.incTrusted = Node.mk 1 0 (List.replicate 16 none) := rfl

theorem getChild_mk_replicate (t s i : Nat) :
    (Node.mk t s (List.replicate 16 none)).getChild i = none := by
  simp only [Node.getChild, Node.children]
  exact replicate_getD_none 16 i

/-- The loop of `record_trusted` from a fresh node: with `4 * is.length` bits
left before `MINIMUM_BITS`, it increments a fresh node at every level along
`is`, creates no other nodes, and stops exactly at `MINIMUM_BITS`. -/
theorem recordTrustedGo_fresh :
    ∀ (is rest : List Nat) (d : Nat), d + 4 * is.length = MINIMUM_BITS →
      recordTrustedGo Node.fresh (is ++ rest) d = (chainNode is, MINIMUM_BITS) := by
  intro is
  induction is with
  | nil =>
    intro rest d h
    simp only [List.length_nil, Nat.mul_zero, Nat.add_zero] at h
    subst h
    cases rest with
    | nil => rfl
    | cons j rs =>
      show recordTrustedGo Node.fresh (j :: rs) MINIMUM_BITS = (chainNode [], MINIMUM_BITS)
      rw [recordTrustedGo]
      rw [if_pos ⟨le_refl MINIMUM_BITS, rfl⟩]
      rfl
  | cons i is ih =>
    intro rest d h
    simp only [List.length_cons] at h
    have hrec := ih rest (d + 4) (by omega)
    have hd : ¬(MINIMUM_BITS ≤ d ∧ (Node.fresh.incTrusted).spam = 0) := by
      intro hc
      have := hc.1
      simp only [MINIMUM_BITS] at this
      omega
    show recordTrustedGo Node.fresh (i :: (is ++ rest)) d = (chainNode (i :: is), MINIMUM_BITS)
    rw [recordTrustedGo]
    rw [if_neg hd]
    show (Node.fresh.incTrusted.setChild i
        (recordTrustedGo ((Node.fresh.incTrusted.getChild i).getD Node.fresh)
          (is ++ rest) (d + 4)).1,
      (recordTrustedGo ((Node.fresh.incTrusted.getChild i).getD Node.fresh)
          (is ++ rest) (d + 4)).2) = (chainNode (i :: is), MINIMUM_BITS)
    rw [fresh_incTrusted, getChild_mk_replicate]
    simp only [Option.getD_none]
    rw [hrec]
    rfl

/-- `Address::prefix` succeeds exactly for bit counts up to 120 or equal to
128: every other count panics (the assertion above 128, the out-of-bounds
boundary write in `121..=127`). -/
theorem toPrefix_isSome (a : Address) (bits : Nat) :
    (Address.toPrefix? a bits).isSome = true ↔ (bits ≤ 120 ∨ bits = 128) := by
  simp only [Address.toPrefix?]
  split
  · simp only [Option.isSome_none, Bool.false_eq_true, false_iff]
    omega
  · split
    · simp only [Option.isSome_some, true_iff]
      omega
    · split
      · simp only [Option.isSome_some, true_iff]
        omega
      · simp only [Option.isSome_none, Bool.false_eq_true, false_iff]
        omega

theorem toPrefix_first_length (a : Address) (bits : Nat) (p : AddressPrefix)
    (hlen : a.length = 16) (h : Address.toPrefix? a bits = some p) :
    p.first.length = 16 := by
  simp only [Address.toPrefix?] at h
  split at h
  · exact absurd h (by simp)
  · have hb : bits ≤ 128 := by omega
    have hw : bits / 8 ≤ 16 := by omega
    have hbase : (a.take (bits / 8) ++ List.replicate (16 - bits / 8) 0).length = 16 := by
      simp [List.length_take, hlen]
      omega
    split at h
    · cases h
      exact hbase
    · split at h
      · cases h
        simpa using hbase
      · exact absurd h (by simp)

/-! ## Claims -/

/-- Claim C3 (code bug): the claim states that `address.prefix(bits)` succeeds
for every `bits ≤ 128` and masks the boundary byte of the address itself into
the boundary slot.  In the source the masked byte is read from and written to
slot `wholes + 1`: the call panics for `bits = 121` (index 16 out of bounds),
and at `bits = 4` the result keeps byte 1 of the address (`0x34 & 0xf0`) in
slot 1 while slot 0 — the only byte the 4-bit prefix covers — is zeroed,
contradicting the claim, the spec, and the `first` field's own documentation
("the one ending with `ADDRESS_BITS - bits` zero bits"). -/
theorem c3_boundary_byte_misplaced :
    Address.toPrefix? (List.replicate 16 255) 121 = none ∧
    Address.toPrefix? (18 :: 52 :: 86 :: List.replicate 13 120) 4
      = some ⟨0 :: 48 :: List.replicate 14 0, 4⟩ := ⟨rfl, rfl⟩

/-- Claim C4 (code bug): the claim states that `shorten()` on a prefix with
`bits ≥ 1` re-zeros the newly exposed trailing bit, failing only at
`bits == 0`.  In the source, when the new bit position is 7 the byte *after*
the boundary byte is zeroed instead: shortening the canonical 16-bit prefix
`0:1:…` leaves bit 15 set (the result is not the canonical 15-bit prefix),
and shortening any 128-bit prefix panics (index 16 out of bounds). -/
theorem c4_shorten_not_canonical :
    AddressPrefix.shorten? ⟨0 :: 1 :: List.replicate 14 0, 16⟩
      = some ⟨0 :: 1 :: List.replicate 14 0, 15⟩ ∧
    AddressPrefix.shorten? ⟨List.replicate 16 0, 128⟩ = none := ⟨rfl, rfl⟩

/-- Claim C5 (code bug): the claim states that `record_trusted` stops at the
first multiple-of-4 depth `k ≥ 20` whose node is spam-free (or 128) and emits
an operation encoding `a.prefix(k)`.  The descent and stop rule do work that
way, but when the stop depth is 124 the final `address.prefix(124)` panics
(boundary slot 16 out of bounds), so no operation is emitted: after
`record_spam` of the zero address, `record_trusted` of an address sharing 120
bits stops at depth 124 and panics, while a sibling input whose walk reaches
depth 128 succeeds. -/
theorem c5_stop_depth_124_panics :
    ((AddressTree.new 0 0).recordSpam? zeroAddr).bind
        (fun r => r.1.recordTrusted? c5Addr) = none ∧
    (((AddressTree.new 0 0).recordSpam? zeroAddr).bind
        (fun r => r.1.recordTrusted? (List.replicate 15 0 ++ [1]))).isSome = true :=
  ⟨rfl, rfl⟩

/-- Claim C1 (code bug): the claim states that replaying the serialized log
into a fresh tree with the same keys reproduces the trie exactly and that
every recomputed checksum matches the stored tag.  For the single accepted
operation `record_trusted` of `c1Addr` (fifth nibble 1) the live trie holds
the chain `0,0,0,0,1`, but the stored record's address bytes are all
zero — `Address::prefix` zeroed the boundary nibble — so replay builds the
chain `0,0,0,0,0`: the tries differ in structure.  The recomputed checksum
still equals the stored tag (both hash the same 17 bytes), so the corruption
is silent. -/
theorem c1_replay_not_bit_identical :
    (c1Live.map fun r =>
        ((r.1.root.lookupPath [0, 0, 0, 0, 1]).isSome,
         (r.1.root.lookupPath [0, 0, 0, 0, 0]).isSome)) = some (true, false) ∧
    (c1Replay.map fun r =>
        ((r.1.root.lookupPath [0, 0, 0, 0, 1]).isSome,
         (r.1.root.lookupPath [0, 0, 0, 0, 0]).isSome)) = some (false, true) ∧
    c1Replay.map (fun r => r.2.drop 17) = c1Live.map (fun r => r.2.drop 17) ∧
    c1Live.map (fun r => r.2.take 17) = some (20 :: zeroAddr) :=
  ⟨rfl, rfl, rfl, rfl⟩

/-- Claim C2, counterexample: a deserialized Trust record encoding a 4-bit
prefix, applied to an empty tree, mutates nodes deeper than 4 bits (the
depth-8 node along the zero path exists afterwards), because
`TreeOperation::apply` replays `record_trusted` with its normal stop rule
instead of stopping at the record's bit count.  (It stops at depth 20, so the
depth-24 node does not exist.) -/
theorem c2_counterexample :
    (((TreeOperation.deserialize? (4 :: zeroAddr)).bind fun op =>
        op.apply? (AddressTree.new 0 0)).map fun r =>
      ((r.1.root.lookupPath [0, 0]).isSome,
       (r.1.root.lookupPath [0, 0, 0, 0, 0, 0]).isSome)) = some (true, false) := rfl

/-- Claim C2, amended: applying a deserialized Trust record of `n ≥ 1` bits
replays `record_trusted` on the record's zero-filled first address under the
normal stop rule, not at `n` bits; on an empty tree it increments
`trusted_count` at exactly the six nodes along that address's nibble path at
depths 0, 4, …, 20 — independent of `n` — and mutates nothing else. -/
theorem c2_replay_normal_stop_rule (n : Nat) (addr : Address) (p : AddressPrefix)
    (hlen : addr.length = 16) (h0 : n ≠ 0)
    (hp : Address.toPrefix? addr n = some p) :
    TreeOperation.deserialize? (n :: addr) = some (.Trust p) ∧
    (((TreeOperation.Trust p).apply? (AddressTree.new 0 0)).map fun r => r.1.root)
      = some (chainNode ((addressNibbles p.first).take 5)) := by
  constructor
  · simp [TreeOperation.deserialize?, h0, hp]
  · have hfl : p.first.length = 16 := toPrefix_first_length addr n p hlen hp
    have htk : ((addressNibbles p.first).take 5).length = 5 := by
      rw [List.length_take, addressNibbles_length, hfl]
      omega
    have hgo := recordTrustedGo_fresh ((addressNibbles p.first).take 5)
      ((addressNibbles p.first).drop 5) 0
      (by rw [htk]; rfl)
    rw [List.take_append_drop 5 (addressNibbles p.first)] at hgo
    show ((AddressTree.new 0 0).recordTrusted? p.first).map (fun r => r.1.root)
      = some (chainNode ((addressNibbles p.first).take 5))
    unfold AddressTree.recordTrusted?
    rw [show (AddressTree.new 0 0).root = Node.fresh from rfl, hgo]
    simp [Address.toPrefix?, serializeWithChecksum?, TreeOperation.serializeBytes?,
      MINIMUM_BITS]

/-- Witness for the amended claim C2 at `n = 4` and the zero address. -/
theorem c2_replay_normal_stop_rule_witness :
    TreeOperation.deserialize? (4 :: zeroAddr) = some (.Trust ⟨zeroAddr, 4⟩) ∧
    (((TreeOperation.Trust ⟨zeroAddr, 4⟩).apply? (AddressTree.new 0 0)).map fun r => r.1.root)
      = some (chainNode ((addressNibbles (⟨zeroAddr, 4⟩ : AddressPrefix).first).take 5)) :=
  c2_replay_normal_stop_rule 4 zeroAddr ⟨zeroAddr, 4⟩ (by decide) (by decide) (by decide)

/-- Claim C6: if, after the windows are advanced to `now`, user `u` already
has `ENTRIES_PER_USER` live observations, then `trust` and `spam` return the
advanced state unchanged: no counts entry is touched, nothing is pushed onto
either window, and `users` is unchanged (and the `SpamTree` variant emits no
log record at all). -/
theorem c6_cap_hit_is_invisible (st st' : SpamTree) (a : Address) (u now : Nat)
    (hadv : st.advance? now = some st')
    (hu : lookupUser st'.users u = some ENTRIES_PER_USER) :
    st.trust? a u now = some st' ∧ st.spam? a u now = some st' := by
  constructor <;>
    simp [SpamTree.trust?, SpamTree.spam?, hadv, tryIncrement, hu]

/-- Witness for claim C6: user 7 at the cap, empty windows, hour 20000. -/
theorem c6_cap_hit_is_invisible_witness :
    c6State.trust? zeroAddr 7 20000 = some c6State ∧
    c6State.spam? zeroAddr 7 20000 = some c6State :=
  c6_cap_hit_is_invisible c6State c6State zeroAddr 7 20000 (by decide) (by decide)

/-- Claim C7 (code bug): the claim states that `query_stale` returns the
stats at the longest recorded prefix of the address, and `EMPTY` with
`prefix_bits = 0` when no recorded prefix exists.  When the map holds an
entry ordered below the address that is not one of its prefixes, the loop
shortens the 128-bit prefix and panics in `shorten` (index 16 out of
bounds) instead of returning `EMPTY`; on an empty map the `EMPTY` case does
work. -/
theorem c7_query_stale_panics :
    c7State.queryStale? (16 :: List.replicate 15 0) = none ∧
    SpamTree.newTree.queryStale? zeroAddr = some ⟨SpamStats.EMPTY, 0⟩ := ⟨rfl, rfl⟩

/-- Claim C8 (code bug): the claim states that `head + Σ offsets = tail`
(with a zero front offset) is preserved by every trim iteration.  A list
built by two pushes at hours 1000 and 1001 satisfies the invariant, but after
one `Trim::next` at `now = 5000` (cutoff 4280) it is violated: the source
advances a *copy* of `head_tail`, so the stored head stays at 1000 while the
second entry's offset is zeroed — contradicting the repository's own
`back_time_is_tail` quickcheck test. -/
theorem c8_trim_loses_head_advance :
    ((((TimeList.new Nat 720).push? 10 1000).bind fun l => l.push? 11 1001).map
        TimeList.wellFormed) = some true ∧
    (((((TimeList.new Nat 720).push? 10 1000).bind fun l => l.push? 11 1001).bind fun l =>
        (checkedSubTime? 5000 l.limit).bind fun cutoff =>
          (l.trimStep cutoff).map fun r => r.2).map TimeList.wellFormed) = some false :=
  ⟨rfl, rfl⟩

/-- Claim C9 (code bug): the claim states that handing a record to the full
bounded log queue suspends the client until space is available and is not an
error.  `interact` instead calls `try_send(write).unwrap()`: with 32 records
already queued the `unwrap` panics the client task (after the trie and
checksum were already mutated), while the same operation succeeds when the
queue has space. -/
theorem c9_full_queue_panics :
    interactTrust? (AddressTree.new 0 0) (List.replicate 32 (List.replicate 25 0)) zeroAddr
      = none ∧
    (interactTrust? (AddressTree.new 0 0) [] zeroAddr).isSome = true := ⟨rfl, rfl⟩

/-- Claim C10, counterexample: a 17-byte buffer with first byte 121 does not
yield an operation — `deserialize` panics inside `Address::prefix` — although
the claim states that every first byte in `1..=128` yields one. -/
theorem c10_counterexample :
    TreeOperation.deserialize? (121 :: zeroAddr) = none := rfl

/-- Claim C10, amended: `TreeOperation::deserialize` over a 17-byte buffer
panics rather than returning an error for every first byte in `129..=255`
(the `bits ≤ 128` assertion) and also for every first byte in `121..=127`
(the out-of-bounds boundary slot in `Address::prefix`); it yields an
operation exactly for first bytes 0, `1..=120`, and 128. -/
theorem c10_deserialize_totality (b : Nat) (addr : Address) (_hlen : addr.length = 16) :
    (TreeOperation.deserialize? (b :: addr)).isSome = true ↔ (b ≤ 120 ∨ b = 128) := by
  by_cases hb : b = 0
  · subst hb
    simp [TreeOperation.deserialize?]
  · simp only [TreeOperation.deserialize?, if_neg hb]
    rcases h : Address.toPrefix? addr b with _ | q
    · have h2 := toPrefix_isSome addr b
      rw [h] at h2
      simpa using h2
    · have h2 := toPrefix_isSome addr b
      rw [h] at h2
      simpa using h2

/-- Witness for the amended claim C10 at first byte 121. -/
theorem c10_deserialize_totality_witness :
    (TreeOperation.deserialize? (121 :: zeroAddr)).isSome = true ↔ (121 ≤ 120 ∨ 121 = 128) :=
  c10_deserialize_totality 121 zeroAddr (by decide)

end Iptooled
